import Mathlib

/-!
Verification of the RLN (rate-limiting nullifier) core against its source.

The embedding covers the three source files of the repository:
`src/circuit/rln.rs` (the RLN constraint circuit), `src/ffi.rs` (the foreign
boundary), and the test scaffolding around them.  The Poseidon hasher, the
Merkle tree and the protocol engine (`poseidon.rs`, `circuit/poseidon.rs`,
`circuit/polynomial.rs`, `merkle.rs`, `public.rs`) are not part of the source
tree given here; where a claim needs them they are modelled from the
specification, and each such definition says so in its doc comment.

The circuit is embedded over an arbitrary field `F`, mirroring the Rust
code's genericity over the pairing engine `E` (whose scalar type `E::Fr` is a
prime field).  The Poseidon hash is an abstract parameter `hash : List F → F`
serving both arities; the specification requires the native and in-circuit
Poseidon to agree bit-for-bit, so one function stands for both.
-/

namespace Rln

/-- A rank-1 constraint `a * b = c`, recorded with the three linear
combinations already evaluated at the (fully determined) assignment that the
`synthesize` closures compute from the circuit inputs. -/
abbrev Constraint (F : Type) := F × F × F

/-- A recorded constraint list holds when every product equation in it is
satisfied. -/
def holdsAll {F : Type} [Mul F] [DecidableEq F] (cs : List (Constraint F)) : Bool :=
  cs.all fun c => c.1 * c.2.1 == c.2.2

/-- The witness / public-input bundle of the RLN circuit
(`RLNInputs` in `src/circuit/rln.rs`): every field is an `Option`, with
`none` modelling an unassigned value. -/
structure RLNInputs (F : Type) where
  share_x : Option F
  share_y : Option F
  epoch : Option F
  nullifier : Option F
  root : Option F
  id_key : Option F
  auth_path : List (Option (F × Bool))

/-- `RLNInputs::public_inputs` (`src/circuit/rln.rs`, lines 49-57): unwraps
the five public fields in the order root, epoch, share_x, share_y, nullifier.
The `unwrap` panic on an unassigned field is modelled by `none`. -/
def RLNInputs.public_inputs {F : Type} (i : RLNInputs F) : Option (List F) := do
  let r ← i.root
  let ep ← i.epoch
  let x ← i.share_x
  let y ← i.share_y
  let n ← i.nullifier
  pure [r, ep, x, y, n]

/-- A fully assigned instance of `RLNInputs`: the shape the prover passes to
`synthesize`, where every allocation closure succeeds. -/
structure RLNInputsA (F : Type) where
  share_x : F
  share_y : F
  epoch : F
  nullifier : F
  root : F
  id_key : F
  auth_path : List (F × Bool)
deriving DecidableEq

/-- Wraps a fully assigned input bundle back into the optional form. -/
def RLNInputsA.assign {F : Type} (i : RLNInputsA F) : RLNInputs F :=
  { share_x := some i.share_x
    share_y := some i.share_y
    epoch := some i.epoch
    nullifier := some i.nullifier
    root := some i.root
    id_key := some i.id_key
    auth_path := i.auth_path.map some }

/-- The Merkle accumulator as `synthesize` computes it
(`src/circuit/rln.rs`, lines 100-116).  `conditionally_reverse (acc, sibling,
position)` returns the pair `(sibling, acc)` when the position bit is true and
`(acc, sibling)` otherwise, and the code binds that pair as `(xr, xl)` before
hashing `[xl, xr]`: a true position bit therefore hashes `[acc, sibling]` and a
false one hashes `[sibling, acc]`. -/
def merkleAscend {F : Type} (hash : List F → F) : F → List (F × Bool) → F
  | acc, [] => acc
  | acc, e :: rest =>
      merkleAscend hash (if e.2 then hash [acc, e.1] else hash [e.1, acc]) rest

/-- The Merkle accumulator in the order claimed by the specification sentence
under test: hash the accumulator with the sibling, with the operand order
swapped exactly when the level's position bit is true.  Stated here only to be
compared against the accumulator the source actually computes. -/
def merkleAscendSpec {F : Type} (hash : List F → F) : F → List (F × Bool) → F
  | acc, [] => acc
  | acc, e :: rest =>
      merkleAscendSpec hash (if e.2 then hash [e.1, acc] else hash [acc, e.1]) rest

/-- One level of the membership loop of `synthesize`
(`src/circuit/rln.rs`, lines 100-116), with the constraints each gadget emits,
evaluated at the determined assignment:
the boolean constraint of `AllocatedBit::alloc` ((1 - b) * b = 0) and the two
constraints of `conditionally_reverse` ((acc - sib) * b = acc - xr and
(sib - acc) * b = sib - xl).  The in-circuit Poseidon gadget is modelled by the
abstract hash itself: its internal constraints tie its output wire to the
Poseidon value of its inputs, so at the determined assignment they hold
identically and contribute no further condition. -/
def ascend {F : Type} [Field F] (hash : List F → F) :
    F → List (F × Bool) → F × List (Constraint F)
  | acc, [] => (acc, [])
  | acc, e :: rest =>
      let condV : F := if e.2 then 1 else 0
      let xr : F := if e.2 then e.1 else acc
      let xl : F := if e.2 then acc else e.1
      let next := ascend hash (hash [xl, xr]) rest
      (next.1,
        (1 - condV, condV, 0) ::
        (acc - e.1, condV, acc - xr) ::
        (e.1 - acc, condV, e.1 - xl) :: next.2)

/-- The membership part of `synthesize` (`src/circuit/rln.rs`, lines 78-125):
the leaf is the Poseidon image of `id_key`, the loop ascends the
authentication path, and the final `enforce` is `acc * 1 = root`. -/
def membershipConstraints {F : Type} [Field F] (hash : List F → F)
    (i : RLNInputsA F) : List (Constraint F) :=
  let up := ascend hash (hash [i.id_key]) i.auth_path
  up.2 ++ [(up.1, 1, i.root)]

/-- Modelled from the spec: `allocate_add_with_coeff`
(`src/circuit/polynomial.rs`, which is not under `src/`).  Per the
specification it allocates the evaluation `a * x + b` of the line equation and
constrains it with the single multiplication `a * x = eval - b`.  Returns the
allocated value and the emitted constraint. -/
def allocate_add_with_coeff {F : Type} [Field F] (a x b : F) : F × Constraint F :=
  (a * x + b, (a, x, a * x + b - b))

/-- The line-equation part of `synthesize` (`src/circuit/rln.rs`, lines
132-167): `a_1 = hash [id_key, epoch]`, the evaluation constraint of
`allocate_add_with_coeff`, and the final `enforce` `share_y * 1 = eval`. -/
def lineConstraints {F : Type} [Field F] (hash : List F → F)
    (i : RLNInputsA F) : List (Constraint F) :=
  let a1 := hash [i.id_key, i.epoch]
  let ev := allocate_add_with_coeff a1 i.share_x i.id_key
  [ev.2, (i.share_y, 1, ev.1)]

/-- The nullifier part of `synthesize` (`src/circuit/rln.rs`, lines 169-194):
`nullifier_calculated = hash [a_1]` and the `enforce`
`nullifier_calculated * 1 = nullifier`. -/
def nullifierConstraints {F : Type} [Field F] (hash : List F → F)
    (i : RLNInputsA F) : List (Constraint F) :=
  let a1 := hash [i.id_key, i.epoch]
  [(hash [a1], 1, i.nullifier)]

/-- The state a constraint system accumulates during `synthesize`: the emitted
constraints and the values of the inputized (public) wires, each in emission
order. -/
structure SynthState (F : Type) where
  constraints : List (Constraint F)
  pub_inputs : List F

/-- `inputize`: appends the value of a public wire to the public-input list. -/
def inputize {F : Type} (s : SynthState F) (v : F) : SynthState F :=
  ⟨s.constraints, s.pub_inputs ++ [v]⟩

/-- `enforce`: appends one constraint. -/
def enforce {F : Type} (s : SynthState F) (c : Constraint F) : SynthState F :=
  ⟨s.constraints ++ [c], s.pub_inputs⟩

/-- Appends the constraints emitted by a sub-gadget. -/
def enforce_list {F : Type} (s : SynthState F) (cs : List (Constraint F)) : SynthState F :=
  ⟨s.constraints ++ cs, s.pub_inputs⟩

/-- `RLNCircuit::synthesize` (`src/circuit/rln.rs`, lines 73-197) on a fully
assigned input bundle, mirroring the source order: allocate and inputize
`root`; allocate the preimage and hash it to the leaf; ascend the
authentication path; enforce membership; allocate and inputize `epoch`;
compute `a_1`; allocate and inputize `share_x`; allocate the line evaluation
with its constraint; allocate and inputize `share_y`; enforce the lookup;
compute the calculated nullifier; allocate and inputize `nullifier`; enforce
the nullifier equation. -/
def synthesize {F : Type} [Field F] (hash : List F → F) (i : RLNInputsA F) :
    SynthState F :=
  let s := inputize ⟨[], []⟩ i.root
  let identity := hash [i.id_key]
  let up := ascend hash identity i.auth_path
  let s := enforce_list s up.2
  let s := enforce s (up.1, 1, i.root)
  let s := inputize s i.epoch
  let a1 := hash [i.id_key, i.epoch]
  let s := inputize s i.share_x
  let ev := allocate_add_with_coeff a1 i.share_x i.id_key
  let s := enforce s ev.2
  let s := inputize s i.share_y
  let s := enforce s (i.share_y, 1, ev.1)
  let s := inputize s i.nullifier
  let s := enforce s (hash [a1], 1, i.nullifier)
  s

/-! ## The protocol engine, modelled from the specification

`public.rs` and `merkle.rs` are not under `src/`; the definitions below model
them from the specification (sections 3, 4.2 and 4.4), with one deliberate
deviation that is documented where it happens. -/

/-- The error taxonomy of the specification (section 7). -/
inductive RlnError where
  | parameterError
  | capacityError
  | indexError
  | witnessError
  | serializationError
deriving DecidableEq

/-- Modelled from the spec: the Merkle membership tree (`merkle.rs` is not
under `src/`).  Depth `D` and a total leaf map; indices at or above `2 ^ D`
are never touched, and unset leaves hold the empty sentinel. -/
structure RlnState (F : Type) where
  depth : Nat
  leaves : Nat → F

/-- Modelled from the spec: the root of the subtree of height `d` whose
leftmost leaf sits at index `base * 2 ^ d`, combined by pairwise Poseidon. -/
def subRoot {F : Type} (hash : List F → F) (leaves : Nat → F) : Nat → Nat → F
  | 0, base => leaves base
  | d + 1, base => hash [subRoot hash leaves d (2 * base), subRoot hash leaves d (2 * base + 1)]

/-- Modelled from the spec: `root()` — the pairwise Poseidon combination of
all leaves up the tree. -/
def treeRoot {F : Type} (hash : List F → F) (st : RlnState F) : F :=
  subRoot hash st.leaves st.depth 0

/-- Modelled from the spec: `witness(index)` — `D` sibling/position pairs
from leaf to root, the position derived from the index's bit pattern.  The
polarity is fixed by the requirement (sections 4.1 and 4.3) that the native
recomputation agree with the circuit, whose true position bit hashes
`[acc, sibling]`: the bit is true exactly when the current node is a left
child at that level. -/
def witnessM {F : Type} (hash : List F → F) (st : RlnState F) (index : Nat) :
    List (F × Bool) :=
  (List.range st.depth).map fun i =>
    (subRoot hash st.leaves i (Nat.xor (index / 2 ^ i) 1), index / 2 ^ i % 2 == 0)

/-- Modelled from the spec: `check_inclusion(auth_path, index, leaf_preimage)`
— natively recompute the root from the Poseidon commitment of the preimage
along the path and compare to the stored root. -/
def check_inclusion {F : Type} [DecidableEq F] (hash : List F → F) (st : RlnState F)
    (path : List (F × Bool)) (_index : Nat) (preimage : F) : Bool :=
  merkleAscend hash (hash [preimage]) path == treeRoot hash st

/-- Modelled from the spec: the engine's `generate_proof` (`public.rs` is not
under `src/`), at the level of its parsed inputs.  Steps follow section 4.4:
`share_x` is the hash-to-field of the signal, the witness is fetched for the
member index, `a_1`, `share_y` and the nullifier are computed natively, and
the assembled `RLNInputs` (whose public part the serialized proof carries) is
returned.  Deviation from the spec's words: section 4.4 step (2) claims a
fail-fast `check_inclusion` returning `WitnessError`; the repository's own
test (`src/ffi.rs`, `test_proof_ffi`, the `gen_proof_and_verify` closure with
`fail = true`) asserts that proof generation succeeds for a mismatched
`(secret, index)` pair and that only verification reports the false statement,
so no inclusion check is performed here.  An out-of-range index cannot produce
a witness and is an `IndexError`. -/
def generateProofM {F : Type} [Field F] (hash : List F → F)
    (hashToField : List UInt8 → F) (st : RlnState F)
    (secret : F) (index : Nat) (epoch : F) (signal : List UInt8) :
    Except RlnError (RLNInputsA F) :=
  if index < 2 ^ st.depth then
    let x := hashToField signal
    let a1 := hash [secret, epoch]
    Except.ok
      { share_x := x
        share_y := a1 * x + secret
        epoch := epoch
        nullifier := hash [a1]
        root := treeRoot hash st
        id_key := secret
        auth_path := witnessM hash st index }
  else Except.error RlnError.indexError

/-! ## The foreign boundary (`src/ffi.rs`)

Pointers are modelled as `Option` values, `none` being the null pointer, and a
`Buffer` records the byte region its `ptr` addresses together with its `len`
field.  The engine behind the `ctx` pointer and the core operations it exposes
are opaque parameters: the claims about this layer concern only its control
flow.  The outcome of a call distinguishes a normal boolean return from the
two ways a call can fail to return: dereferencing a null pointer (undefined
behaviour) and a Rust panic. -/

/-- The observable outcome of one foreign-boundary call: `ok flag out` is a
normal return carrying the success flag and whatever was written through the
output pointers; `nullDeref` marks the undefined behaviour of dereferencing a
null pointer; `panicked` marks a Rust panic. -/
inductive Outcome (α : Type) where
  | nullDeref : Outcome α
  | panicked : Outcome α
  | ok : Bool → α → Outcome α
deriving DecidableEq

/-- True exactly when the call returned normally with the success flag
`false`. -/
def returnsFalse {α : Type} : Outcome α → Bool
  | Outcome.ok false _ => true
  | _ => false

/-- The `Buffer` descriptor of `src/ffi.rs` (lines 8-13): `ptr` models the
byte region the raw pointer addresses, beginning at the pointed-to byte, and
`len` is the stored length. -/
structure Buffer where
  ptr : List UInt8
  len : Nat
deriving DecidableEq

/-- `From<&[u8]> for Buffer` (`src/ffi.rs`, lines 15-22): takes the address
of `src[0]` — a panic on the empty slice, modelled by `none` — and the slice
length. -/
def bufferFrom (src : List UInt8) : Option Buffer :=
  match src with
  | [] => none
  | _ :: _ => some ⟨src, src.length⟩

/-- `From<&Buffer> for &[u8]` (`src/ffi.rs`, lines 24-28):
`slice::from_raw_parts(ptr, len)` reads `len` bytes from the addressed
region. -/
def bufferToSlice (b : Buffer) : List UInt8 :=
  b.ptr.take b.len

/-- `new_circuit_from_params` (`src/ffi.rs`, lines 43-56): dereferences the
parameter buffer, builds the engine, returns `false` on a core error and
writes the boxed engine through `ctx` on success. -/
def new_circuit_from_params {R E : Type} (merkle_depth : Nat)
    (parameters_buffer : Option Buffer)
    (core_new : Nat → List UInt8 → Except E R) : Outcome (Option R) :=
  match parameters_buffer with
  | none => Outcome.nullDeref
  | some buf =>
      match core_new merkle_depth (bufferToSlice buf) with
      | Except.error _ => Outcome.ok false none
      | Except.ok rln => Outcome.ok true (some rln)

/-- `get_root` (`src/ffi.rs`, lines 58-69).  The source evaluates the
`match` on the core result but terminates it with a semicolon, discarding the
boolean it produces; the function then unconditionally builds the output
buffer from the bytes the core wrote (none on an error, so `Buffer::from`
panics on its empty slice) and returns `true`. -/
def get_root {R E : Type} (ctx : Option R)
    (core_get_root : R → Except E (List UInt8))
    (output_buffer : Option Unit) : Outcome (Option Buffer) :=
  match ctx with
  | none => Outcome.nullDeref
  | some rln =>
      let output_data : List UInt8 :=
        match core_get_root rln with
        | Except.ok bs => bs
        | Except.error _ => []
      match bufferFrom output_data with
      | none => Outcome.panicked
      | some b =>
          match output_buffer with
          | none => Outcome.nullDeref
          | some _ => Outcome.ok true (some b)

/-- `update_next_member` (`src/ffi.rs`, lines 71-79): dereferences the
context and the input buffer, then maps the core result to the boolean
flag. -/
def update_next_member {R E : Type} (ctx : Option R)
    (input_buffer : Option Buffer)
    (core_update : R → List UInt8 → Except E Unit) : Outcome Unit :=
  match ctx with
  | none => Outcome.nullDeref
  | some rln =>
      match input_buffer with
      | none => Outcome.nullDeref
      | some b =>
          match core_update rln (bufferToSlice b) with
          | Except.ok _ => Outcome.ok true ()
          | Except.error _ => Outcome.ok false ()

/-- `delete_member` (`src/ffi.rs`, lines 81-88). -/
def delete_member {R E : Type} (ctx : Option R) (index : Nat)
    (core_delete : R → Nat → Except E Unit) : Outcome Unit :=
  match ctx with
  | none => Outcome.nullDeref
  | some rln =>
      match core_delete rln index with
      | Except.ok _ => Outcome.ok true ()
      | Except.error _ => Outcome.ok false ()

/-- `generate_proof` (`src/ffi.rs`, lines 90-107): a core error returns
`false` before anything is written; on success the output buffer is built
from the proof bytes (a panic when they are empty). -/
def generate_proof {R E : Type} (ctx : Option R)
    (input_buffer : Option Buffer)
    (core_generate : R → List UInt8 → Except E (List UInt8))
    (output_buffer : Option Unit) : Outcome (Option Buffer) :=
  match ctx with
  | none => Outcome.nullDeref
  | some rln =>
      match input_buffer with
      | none => Outcome.nullDeref
      | some ib =>
          match core_generate rln (bufferToSlice ib) with
          | Except.error _ => Outcome.ok false none
          | Except.ok bytes =>
              match bufferFrom bytes with
              | none => Outcome.panicked
              | some ob =>
                  match output_buffer with
                  | none => Outcome.nullDeref
                  | some _ => Outcome.ok true (some ob)

/-- `verify` (`src/ffi.rs`, lines 109-126): a core error returns `false`
before `result_ptr` is touched; otherwise `0` is written for a verified
statement and `1` for a false one, and the call returns `true`. -/
def verify {R E : Type} (ctx : Option R) (proof_buffer : Option Buffer)
    (core_verify : R → List UInt8 → Except E Bool)
    (result_ptr : Option Unit) : Outcome (Option Nat) :=
  match ctx with
  | none => Outcome.nullDeref
  | some rln =>
      match proof_buffer with
      | none => Outcome.nullDeref
      | some pb =>
          match core_verify rln (bufferToSlice pb) with
          | Except.error _ => Outcome.ok false none
          | Except.ok verified =>
              match result_ptr with
              | none => Outcome.nullDeref
              | some _ => Outcome.ok true (some (if verified then 0 else 1))

/-- `signal_to_field` (`src/ffi.rs`, lines 128-145): same output-path shape
as `generate_proof`. -/
def signal_to_field {R E : Type} (ctx : Option R)
    (inputs_buffer : Option Buffer)
    (core_signal : R → List UInt8 → Except E (List UInt8))
    (output_buffer : Option Unit) : Outcome (Option Buffer) :=
  match ctx with
  | none => Outcome.nullDeref
  | some rln =>
      match inputs_buffer with
      | none => Outcome.nullDeref
      | some ib =>
          match core_signal rln (bufferToSlice ib) with
          | Except.error _ => Outcome.ok false none
          | Except.ok bytes =>
              match bufferFrom bytes with
              | none => Outcome.panicked
              | some ob =>
                  match output_buffer with
                  | none => Outcome.nullDeref
                  | some _ => Outcome.ok true (some ob)

/-- `key_gen` (`src/ffi.rs`, lines 147-158): a core error returns `false`;
on success the keypair buffer is built from the produced bytes (a panic when
they are empty). -/
def key_gen {R E : Type} (ctx : Option R)
    (core_key_gen : R → Except E (List UInt8))
    (input_buffer : Option Unit) : Outcome (Option Buffer) :=
  match ctx with
  | none => Outcome.nullDeref
  | some rln =>
      match core_key_gen rln with
      | Except.error _ => Outcome.ok false none
      | Except.ok bytes =>
          match bufferFrom bytes with
          | none => Outcome.panicked
          | some b =>
              match input_buffer with
              | none => Outcome.nullDeref
              | some _ => Outcome.ok true (some b)

/-! ## Concrete instances used by counterexamples and witnesses

The Rust circuit is generic over the engine's scalar field and the Poseidon
parameters; the concrete instances below pick the five-element prime field
and an explicit asymmetric two-ary hash to make the order of hash operands
observable. -/

deriving instance DecidableEq for Except

instance fact_prime_five : Fact (Nat.Prime 5) := ⟨by norm_num⟩

/-- A concrete hash over `ZMod 5` for counterexamples and witnesses:
arity one maps `a` to `a + 1`, arity two maps `(a, b)` to `a + 2 * b` — like
Poseidon, not symmetric in its two operands. -/
def exHash : List (ZMod 5) → ZMod 5
  | [a] => a + 1
  | [a, b] => a + 2 * b
  | _ => 0

/-- A concrete fully assigned input bundle whose membership constraints are
satisfied: the leaf is `exHash [0] = 1`, the single path level has sibling `2`
and a true position bit, so the circuit's accumulator is
`exHash [1, 2] = 0`, which is the stated root. -/
def exInputs : RLNInputsA (ZMod 5) :=
  { share_x := 0
    share_y := 0
    epoch := 0
    nullifier := 0
    root := 0
    id_key := 0
    auth_path := [(2, true)] }

/-- A concrete engine state: a depth-one tree with both leaves holding the
empty sentinel `0`.  The commitment of secret `0` is `exHash [0] = 1`, so
secret `0` matches no leaf of this tree. -/
def exTree : RlnState (ZMod 5) :=
  ⟨1, fun _ => 0⟩

/-! ## General lemmas about the embedding -/

theorem holdsAll_append {F : Type} [Mul F] [DecidableEq F]
    (a b : List (Constraint F)) :
    holdsAll (a ++ b) = (holdsAll a && holdsAll b) := by
  simp [holdsAll, List.all_append]

theorem holdsAll_cons {F : Type} [Mul F] [DecidableEq F]
    (c : Constraint F) (cs : List (Constraint F)) :
    holdsAll (c :: cs) = ((c.1 * c.2.1 == c.2.2) && holdsAll cs) := rfl

/-- The accumulator wire of the membership loop carries exactly the
`merkleAscend` fold of the leaf along the path. -/
theorem ascend_fst {F : Type} [Field F] (hash : List F → F)
    (path : List (F × Bool)) (acc : F) :
    (ascend hash acc path).1 = merkleAscend hash acc path := by
  induction path generalizing acc with
  | nil => rfl
  | cons e rest ih =>
      rcases e with ⟨sib, b⟩
      cases b <;> simp [ascend, merkleAscend, ih]

/-- The boolean and conditional-reversal constraints the membership loop
emits hold at every determined assignment. -/
theorem ascend_snd_holds {F : Type} [Field F] [DecidableEq F]
    (hash : List F → F) (path : List (F × Bool)) (acc : F) :
    holdsAll (ascend hash acc path).2 = true := by
  induction path generalizing acc with
  | nil => rfl
  | cons e rest ih =>
      rcases e with ⟨sib, b⟩
      cases b <;>
        simp [ascend, holdsAll_cons, beq_iff_eq, mul_one, mul_zero, zero_mul,
          sub_self, ih]

/-- The constraint list of `synthesize` is, in order, the membership part,
the line-equation part and the nullifier part. -/
theorem synthesize_constraints_decompose {F : Type} [Field F]
    (hash : List F → F) (i : RLNInputsA F) :
    (synthesize hash i).constraints =
      membershipConstraints hash i ++ lineConstraints hash i ++
        nullifierConstraints hash i := by
  simp [synthesize, inputize, enforce, enforce_list, membershipConstraints,
    lineConstraints, nullifierConstraints, List.append_assoc]

/-! ## Claim theorems -/

/-- Claim C1, counterexample.  The claim states that the membership
constraints are satisfied exactly when the public root equals the accumulator
that hashes the accumulator with the sibling, swapping the operand order when
the position bit is true (`merkleAscendSpec`).  On a one-level path with
sibling `2` and a true position bit the source hashes `[acc, sibling]`
(accumulator `exHash [1, 2] = 0`), while the claimed order hashes
`[sibling, acc]` (accumulator `exHash [2, 1] = 4`): with root `0` the
constraints are satisfied but the claimed accumulator differs from the
root. -/
theorem membership_spec_order_counterexample :
    ¬ (holdsAll (membershipConstraints exHash exInputs) = true ↔
        exInputs.root =
          merkleAscendSpec exHash (exHash [exInputs.id_key]) exInputs.auth_path) := by
  decide

/-- Claim C1, amended.  For every assignment, the membership part of the
constraint system produced by `synthesize` is satisfied exactly when the
public root equals the accumulator obtained from the Poseidon image of
`id_key` by hashing, at each level, the accumulator with the sibling — with
the operand order swapped exactly when that level's position bit is FALSE
(a true bit hashes `[accumulator, sibling]`). -/
theorem membership_constraints_iff_root_eq_fold {F : Type} [Field F]
    [DecidableEq F] (hash : List F → F) (i : RLNInputsA F) :
    holdsAll (membershipConstraints hash i) = true ↔
      i.root = merkleAscend hash (hash [i.id_key]) i.auth_path := by
  unfold membershipConstraints
  rw [holdsAll_append, ascend_snd_holds, Bool.true_and,
    ascend_fst hash i.auth_path (hash [i.id_key])]
  rw [holdsAll_cons]
  simp only [holdsAll, List.all_nil, Bool.and_true, beq_iff_eq, mul_one]
  exact eq_comm

/-- Claim C2.  For every assignment with all fields assigned, the
line-equation constraints of `synthesize` are satisfied exactly when
`share_y = a1 * share_x + id_key` in the scalar field, where
`a1 = Poseidon(id_key, epoch)`. -/
theorem line_constraints_iff_line_equation {F : Type} [Field F]
    [DecidableEq F] (hash : List F → F) (i : RLNInputsA F) :
    holdsAll (lineConstraints hash i) = true ↔
      i.share_y = hash [i.id_key, i.epoch] * i.share_x + i.id_key := by
  simp [lineConstraints, allocate_add_with_coeff, holdsAll, beq_iff_eq,
    mul_one, add_sub_cancel_right]

/-- Claim C3.  For every assignment with all fields assigned, the nullifier
constraints of `synthesize` are satisfied exactly when the public nullifier
equals `Poseidon(a1)` with `a1 = Poseidon(id_key, epoch)`. -/
theorem nullifier_constraints_iff_hash {F : Type} [Field F]
    [DecidableEq F] (hash : List F → F) (i : RLNInputsA F) :
    holdsAll (nullifierConstraints hash i) = true ↔
      i.nullifier = hash [hash [i.id_key, i.epoch]] := by
  rw [nullifierConstraints, holdsAll_cons]
  simp only [holdsAll, List.all_nil, Bool.and_true, beq_iff_eq, mul_one]
  exact eq_comm

/-- Claim C6.  `synthesize` inputizes exactly five public wires, in the order
root, epoch, share_x, share_y, nullifier, and `RLNInputs::public_inputs`
returns the same five values in the same order, so the vector handed to the
verifier matches the circuit's public-input layout. -/
theorem synthesize_public_input_order {F : Type} [Field F]
    (hash : List F → F) (i : RLNInputsA F) :
    (synthesize hash i).pub_inputs =
        [i.root, i.epoch, i.share_x, i.share_y, i.nullifier] ∧
      (synthesize hash i).pub_inputs.length = 5 ∧
      RLNInputs.public_inputs i.assign = some ((synthesize hash i).pub_inputs) := by
  refine ⟨?_, ?_, ?_⟩ <;>
    simp [synthesize, inputize, enforce, enforce_list, RLNInputsA.assign,
      RLNInputs.public_inputs]

/-- Claim C9.  `RLNInputs::public_inputs` returns a value exactly when all
five public fields are assigned; when any of root, epoch, share_x, share_y or
nullifier is unassigned the `unwrap` panics, modelled by `none`. -/
theorem public_inputs_total_iff_assigned {F : Type} (i : RLNInputs F) :
    (RLNInputs.public_inputs i).isSome =
      (i.root.isSome && i.epoch.isSome && i.share_x.isSome && i.share_y.isSome &&
        i.nullifier.isSome) := by
  rcases i with ⟨x, y, ep, n, r, k, p⟩
  cases r <;> cases ep <;> cases x <;> cases y <;> cases n <;> rfl

/-- Claim C4, counterexample.  The claim states that `generate_proof` fails
with `WitnessError` whenever the tree's leaf at the index is not the Poseidon
commitment of the secret.  In the depth-one tree `exTree` the leaf at index 0
is the sentinel `0` while the commitment of secret `0` is `exHash [0] = 1` —
the inclusion check over the fetched witness indeed fails — yet the engine's
`generate_proof`, whose behaviour at a mismatch is fixed by the repository's
own FFI test, succeeds instead of returning `WitnessError`. -/
theorem generate_proof_mismatch_counterexample :
    exTree.leaves 0 ≠ exHash [(0 : ZMod 5)] ∧
      check_inclusion exHash exTree (witnessM exHash exTree 0) 0 0 = false ∧
      generateProofM exHash (fun _ => (0 : ZMod 5)) exTree 0 0 0 [] ≠
        Except.error RlnError.witnessError := by
  decide

/-- Claim C4, amended.  For every engine state and every call with a valid
member index whose leaf does not match the secret's commitment,
`generate_proof` does not fail: it assembles and returns the proof inputs for
the mismatched witness (whose membership statement is false, so verification
— not generation — rejects it). -/
theorem generate_proof_succeeds_on_mismatch {F : Type} [Field F]
    (hash : List F → F) (htf : List UInt8 → F) (st : RlnState F)
    (secret : F) (index : Nat) (epoch : F) (signal : List UInt8)
    (hidx : index < 2 ^ st.depth)
    (_hmismatch : st.leaves index ≠ hash [secret]) :
    generateProofM hash htf st secret index epoch signal =
      Except.ok
        { share_x := htf signal
          share_y := hash [secret, epoch] * htf signal + secret
          epoch := epoch
          nullifier := hash [hash [secret, epoch]]
          root := treeRoot hash st
          id_key := secret
          auth_path := witnessM hash st index } := by
  simp [generateProofM, hidx]

/-- Witness for the amended claim C4 at the concrete mismatched instance. -/
theorem generate_proof_succeeds_on_mismatch_witness :
    generateProofM exHash (fun _ => (0 : ZMod 5)) exTree 0 0 0 [] =
      Except.ok
        { share_x := 0
          share_y := exHash [0, 0] * 0 + 0
          epoch := 0
          nullifier := exHash [exHash [0, 0]]
          root := treeRoot exHash exTree
          id_key := 0
          auth_path := witnessM exHash exTree 0 } :=
  generate_proof_succeeds_on_mismatch exHash (fun _ => (0 : ZMod 5)) exTree 0 0 0 []
    (by decide) (by decide)

/-- Claim C5, code-bug evidence.  When the core `get_root` fails, the
foreign-boundary `get_root` does not return `false`: the source evaluates the
error match but discards its result, then builds the output buffer from the
(empty) output vector — a panic — and would have returned `true`
unconditionally.  By contrast `update_next_member` maps a core error to
`false` as the specification requires of every boundary function. -/
theorem ffi_get_root_core_error_not_false :
    get_root (R := Unit) (E := Unit) (some ()) (fun _ => Except.error ()) (some ()) =
        Outcome.panicked ∧
      returnsFalse
        (get_root (R := Unit) (E := Unit) (some ()) (fun _ => Except.error ())
          (some ())) = false ∧
      update_next_member (R := Unit) (E := Unit) (some ()) (some ⟨[1], 1⟩)
        (fun _ _ => Except.error ()) = Outcome.ok false () := by
  exact ⟨rfl, rfl, rfl⟩

/-- Claim C7.  Through the foreign-boundary `verify` the three outcomes are
distinguishable: a verified statement returns `true` and writes `0`; a false
statement returns `true` and writes `1`; a core error (malformed or
undeserializable input) returns `false` with nothing written. -/
theorem ffi_verify_three_outcomes {R E : Type} (rln : R) (pb : Buffer)
    (core : R → List UInt8 → Except E Bool) :
    (core rln (bufferToSlice pb) = Except.ok true →
        verify (some rln) (some pb) core (some ()) = Outcome.ok true (some 0)) ∧
      (core rln (bufferToSlice pb) = Except.ok false →
        verify (some rln) (some pb) core (some ()) = Outcome.ok true (some 1)) ∧
      (∀ err : E, core rln (bufferToSlice pb) = Except.error err →
        verify (some rln) (some pb) core (some ()) = Outcome.ok false none) := by
  refine ⟨fun h => ?_, fun h => ?_, fun err h => ?_⟩ <;> simp [verify, h]

/-- Witness for claim C7 at concrete cores realising the three outcomes. -/
theorem ffi_verify_three_outcomes_witness :
    verify (R := Unit) (E := Unit) (some ()) (some ⟨[0], 1⟩)
        (fun _ _ => Except.ok true) (some ()) = Outcome.ok true (some 0) ∧
      verify (R := Unit) (E := Unit) (some ()) (some ⟨[0], 1⟩)
        (fun _ _ => Except.ok false) (some ()) = Outcome.ok true (some 1) ∧
      verify (R := Unit) (E := Unit) (some ()) (some ⟨[0], 1⟩)
        (fun _ _ => Except.error ()) (some ()) = Outcome.ok false none :=
  ⟨(ffi_verify_three_outcomes () ⟨[0], 1⟩ (fun _ _ => Except.ok true)).1 rfl,
    (ffi_verify_three_outcomes () ⟨[0], 1⟩ (fun _ _ => Except.ok false)).2.1 rfl,
    (ffi_verify_three_outcomes () ⟨[0], 1⟩ (fun _ _ => Except.error ())).2.2 () rfl⟩

/-- Claim C8, counterexample.  The claim states every foreign-boundary
function returns `false` on a null input pointer instead of dereferencing it.
Calling `verify` with a null proof buffer (the context valid, the core total)
dereferences the null pointer — the call never returns `false`. -/
theorem ffi_null_input_counterexample :
    verify (R := Unit) (E := Unit) (some ()) none (fun _ _ => Except.ok true)
        (some ()) = Outcome.nullDeref ∧
      returnsFalse
        (verify (R := Unit) (E := Unit) (some ()) none (fun _ _ => Except.ok true)
          (some ())) = false := by
  exact ⟨rfl, rfl⟩

/-- Claim C8, amended.  No foreign-boundary function checks its input
pointers for null: each dereferences its context pointer and its buffer
descriptor pointer unconditionally, so a null input leads to the undefined
behaviour of the dereference, never to a `false` return. -/
theorem ffi_null_input_derefs {R E : Type} (depth index : Nat) (rln : R)
    (ib : Buffer) (op : Option Unit)
    (core_new : Nat → List UInt8 → Except E R)
    (core_root : R → Except E (List UInt8))
    (core_upd : R → List UInt8 → Except E Unit)
    (core_del : R → Nat → Except E Unit)
    (core_gen core_sig : R → List UInt8 → Except E (List UInt8))
    (core_ver : R → List UInt8 → Except E Bool)
    (core_key : R → Except E (List UInt8)) :
    new_circuit_from_params depth none core_new = Outcome.nullDeref ∧
      get_root (none : Option R) core_root op = Outcome.nullDeref ∧
      update_next_member (none : Option R) (some ib) core_upd = Outcome.nullDeref ∧
      update_next_member (some rln) none core_upd = Outcome.nullDeref ∧
      delete_member (none : Option R) index core_del = Outcome.nullDeref ∧
      generate_proof (none : Option R) (some ib) core_gen op = Outcome.nullDeref ∧
      generate_proof (some rln) none core_gen op = Outcome.nullDeref ∧
      verify (none : Option R) (some ib) core_ver op = Outcome.nullDeref ∧
      verify (some rln) none core_ver op = Outcome.nullDeref ∧
      signal_to_field (none : Option R) (some ib) core_sig op = Outcome.nullDeref ∧
      signal_to_field (some rln) none core_sig op = Outcome.nullDeref ∧
      key_gen (none : Option R) core_key op = Outcome.nullDeref := by
  exact ⟨rfl, rfl, rfl, rfl, rfl, rfl, rfl, rfl, rfl, rfl, rfl, rfl⟩

/-- Claim C10.  `From<&[u8]> for Buffer` panics on the empty slice (it takes
the address of element 0) and otherwise yields a buffer addressing the
slice's first byte with the slice's length; consequently every
foreign-boundary output path that builds a `Buffer` from its output bytes —
`get_root`, `generate_proof`, `signal_to_field`, `key_gen` — panics when the
core produced no bytes. -/
theorem buffer_from_slice_requires_nonempty {R E : Type} (b : UInt8)
    (rest : List UInt8) (rln : R) (ib : Buffer) :
    bufferFrom ([] : List UInt8) = none ∧
      bufferFrom (b :: rest) = some ⟨b :: rest, (b :: rest).length⟩ ∧
      get_root (E := E) (some rln) (fun _ => Except.ok []) (some ()) =
        Outcome.panicked ∧
      generate_proof (E := E) (some rln) (some ib) (fun _ _ => Except.ok [])
        (some ()) = Outcome.panicked ∧
      signal_to_field (E := E) (some rln) (some ib) (fun _ _ => Except.ok [])
        (some ()) = Outcome.panicked ∧
      key_gen (E := E) (some rln) (fun _ => Except.ok []) (some ()) =
        Outcome.panicked := by
  exact ⟨rfl, rfl, rfl, rfl, rfl, rfl⟩

end Rln
